import Mathlib

/-!
Verification of the store-management telemetry core against its design
document.  The TypeScript services are shallowly embedded: JavaScript
numbers become `ℚ`, fields that may be `undefined` become `Option`,
BehaviorSubject state becomes explicit records, and the aliasing of the
sensor-history array is made explicit with a small store-indexed heap
model.  Each claim of the design is stated and settled as a theorem
below the definitions.
-/

/-- Three-level environment status published by the IoT service
(`'optimal' | 'warning' | 'critical'`). -/
inductive Status where
| optimal
| warning
| critical
deriving DecidableEq

/-- A sensor reading as stored by `SensorHistoryService`
(`{temperature, humidity, timestamp}`). -/
structure SensorReading where
  temperature : ℚ
  humidity : ℚ
  timestamp : ℕ
deriving DecidableEq

namespace SensorHistory

/-- Capacity of the rolling window (`private maxReadings = 100`). -/
def maxReadings : ℕ := 100

/-- One call of `SensorHistoryService.addReading` acting on the list of
readings held by the subject: push the new reading at the end, and if
the length now exceeds `maxReadings`, shift the oldest reading off the
front.  The service then publishes a copy of this list. -/
def addReading (readings : List SensorReading) (temperature humidity : ℚ)
    (now : ℕ) : List SensorReading :=
  let pushed := readings ++ [⟨temperature, humidity, now⟩]
  if maxReadings < pushed.length then pushed.tail else pushed

/-- The window contents after a sequence of `addReading` calls starting
from the empty initial subject value. -/
def windowAfter (rs : List SensorReading) : List SensorReading :=
  rs.foldl (fun l r => addReading l r.temperature r.humidity r.timestamp) []

/-- `getAverageTemperature`: 0 on an empty list, else the reduce-sum
divided by the length. -/
def getAverageTemperature (readings : List SensorReading) : ℚ :=
  if readings.length = 0 then 0
  else (readings.foldl (fun acc r => acc + r.temperature) 0) / readings.length

/-- `getAverageHumidity`: 0 on an empty list, else the reduce-sum
divided by the length. -/
def getAverageHumidity (readings : List SensorReading) : ℚ :=
  if readings.length = 0 then 0
  else (readings.foldl (fun acc r => acc + r.humidity) 0) / readings.length

/-- `Math.max(...xs)` on a nonempty argument list; the empty case is
unreachable in the service (it is guarded by the length check), and is
given the service's sentinel 0. -/
def mathMax (xs : List ℚ) : ℚ :=
  match xs with
  | [] => 0
  | x :: rest => rest.foldl max x

/-- `Math.min(...xs)` on a nonempty argument list; empty case as in
`mathMax`. -/
def mathMin (xs : List ℚ) : ℚ :=
  match xs with
  | [] => 0
  | x :: rest => rest.foldl min x

/-- `getMaxTemperature`: 0 on empty, else `Math.max` over the mapped
temperatures. -/
def getMaxTemperature (readings : List SensorReading) : ℚ :=
  if readings.length = 0 then 0 else mathMax (readings.map (·.temperature))

/-- `getMinTemperature`: 0 on empty, else `Math.min` over the mapped
temperatures. -/
def getMinTemperature (readings : List SensorReading) : ℚ :=
  if readings.length = 0 then 0 else mathMin (readings.map (·.temperature))

/-- `getMaxHumidity`: 0 on empty, else `Math.max` over the mapped
humidities. -/
def getMaxHumidity (readings : List SensorReading) : ℚ :=
  if readings.length = 0 then 0 else mathMax (readings.map (·.humidity))

/-- `getMinHumidity`: 0 on empty, else `Math.min` over the mapped
humidities. -/
def getMinHumidity (readings : List SensorReading) : ℚ :=
  if readings.length = 0 then 0 else mathMin (readings.map (·.humidity))

/-- `clearReadings`: the subject is reset to the empty list. -/
def clearReadings : List SensorReading := []

end SensorHistory

namespace SensorHistoryRef

/-!
Reference-level model of `SensorHistoryService`.  JavaScript arrays are
mutable heap objects, so here the service state is a store of arrays
addressed by index together with the index currently held by
`readingsSubject`.  `addReading` reads `this.readingsSubject.value`
(an alias, not a copy), mutates that very array in place with
`push`/`shift`, and only then publishes a fresh copy `[...readings]` as
the subject's new value.  `getAllReadings` returns
`this.readingsSubject.value` itself, i.e. a reference into the store.
-/

/-- Service state: the heap of arrays and the index of the array
currently held by `readingsSubject`. -/
structure State where
  store : List (List SensorReading)
  current : ℕ
deriving DecidableEq

/-- Initial state: the subject holds a single empty array. -/
def init : State := ⟨[[]], 0⟩

/-- The reference a caller of `getAllReadings` receives: the subject's
current array itself, not a copy. -/
def getAllReadings (s : State) : ℕ := s.current

/-- Dereference an array reference in a state. -/
def deref (s : State) (ref : ℕ) : List SensorReading :=
  s.store[ref]?.getD []

/-- The window contents as the statistics getters observe them
(`this.readingsSubject.value`). -/
def contents (s : State) : List SensorReading :=
  deref s s.current

/-- `addReading` at the heap level: mutate the aliased current array in
place (push, and shift when over capacity), then allocate the fresh
copy `[...readings]` and make it the subject's value. -/
def addReading (s : State) (temperature humidity : ℚ) (now : ℕ) : State :=
  let readings := contents s
  let pushed := readings ++ [⟨temperature, humidity, now⟩]
  let mutated := if SensorHistory.maxReadings < pushed.length
    then pushed.tail else pushed
  { store := (s.store.set s.current mutated) ++ [mutated],
    current := s.store.length }

/-- An external caller overwriting the array it got back from
`getAllReadings` with new contents. -/
def extWrite (s : State) (ref : ℕ) (v : List SensorReading) : State :=
  { s with store := s.store.set ref v }

/-- The store index held by the subject is always in range. -/
def WF (s : State) : Prop := s.current < s.store.length

end SensorHistoryRef

/-!  IoT service: status classification and the sensor/motion/error
callbacks of `listenToSensorData`.  -/

/-- A raw JavaScript field value as delivered by the realtime feed:
a number, a string, or `undefined`. -/
inductive JSVal where
| num (q : ℚ)
| str (s : String)
| undef
deriving DecidableEq

/-- Numeric value of a digit list (most significant first). -/
def digitsToNat (ds : List Char) : ℕ :=
  ds.foldl (fun acc c => 10 * acc + (c.toNat - 48)) 0

/-- JavaScript `parseFloat` on a string, modelled for plain decimal
literals: skip leading whitespace, optional sign, digits with an
optional fractional part; `none` is NaN (no digit found).  Exponent
and special forms are outside the feed's value space and not
modelled. -/
def parseFloatStr (s : String) : Option ℚ :=
  let cs := s.toList.dropWhile (·.isWhitespace)
  let signAndRest : ℚ × List Char :=
    match cs with
    | '-' :: rest => (-1, rest)
    | '+' :: rest => (1, rest)
    | _ => (1, cs)
  let intPart := signAndRest.2.takeWhile (·.isDigit)
  let afterInt := signAndRest.2.dropWhile (·.isDigit)
  let fracPart :=
    match afterInt with
    | '.' :: rest => rest.takeWhile (·.isDigit)
    | _ => []
  if intPart = [] ∧ fracPart = [] then none
  else some (signAndRest.1 *
    ((digitsToNat intPart : ℚ) + (digitsToNat fracPart : ℚ) / 10 ^ fracPart.length))

/-- `parseFloat(v)` on a feed value: numbers round-trip through their
string form unchanged, strings are parsed, `undefined` is NaN. -/
def parseFloatJS (v : JSVal) : Option ℚ :=
  match v with
  | .num q => some q
  | .str s => parseFloatStr s
  | .undef => none

/-- `parseFloat(v) || 0`: NaN is falsy and becomes 0 (and `0 || 0`
is 0). -/
def parseFloatOr0 (v : JSVal) : ℚ :=
  (parseFloatJS v).getD 0

namespace IoT

/-- `IoTService.updateStatus`, verbatim: the four range booleans and
the optimal / warning / critical cascade. -/
def updateStatus (temperature humidity : ℚ) : Status :=
  let tempOptimal := decide (16 ≤ temperature) && decide (temperature ≤ 26)
  let humidityOptimal := decide (30 ≤ humidity) && decide (humidity ≤ 60)
  let tempWarning := decide (12 ≤ temperature) && decide (temperature ≤ 30)
  let humidityWarning := decide (20 ≤ humidity) && decide (humidity ≤ 70)
  if tempOptimal && humidityOptimal then .optimal
  else if tempWarning && humidityWarning then .warning
  else .critical

/-- The classifier as the design document states it (§4.2): Optimal iff
16 ≤ t ≤ 26 and 30 ≤ h ≤ 60, else Warning iff 12 ≤ t ≤ 30 and
20 ≤ h ≤ 70, else Critical, all bounds inclusive.  Stated from the
specification's words for comparison with `updateStatus`. -/
def classifySpec (t h : ℚ) : Status :=
  if 16 ≤ t ∧ t ≤ 26 ∧ 30 ≤ h ∧ h ≤ 60 then .optimal
  else if 12 ≤ t ∧ t ≤ 30 ∧ 20 ≤ h ∧ h ≤ 70 then .warning
  else .critical

/-- The published state of `IoTService`: the values of its six
behavior subjects. -/
structure State where
  temperature : ℚ
  humidity : ℚ
  motion : Bool
  status : Status
  lastUpdated : ℕ
  isLoading : Bool
deriving DecidableEq

/-- Initial subject values (service construction): 0, 0, `false`,
`'optimal'`, construction instant, `true`. -/
def initState (now : ℕ) : State :=
  ⟨0, 0, false, .optimal, now, true⟩

/-- Accessor `getTemperature`. -/
def getTemperature (s : State) : ℚ := s.temperature

/-- Accessor `getHumidity`. -/
def getHumidity (s : State) : ℚ := s.humidity

/-- Accessor `getMotion`. -/
def getMotion (s : State) : Bool := s.motion

/-- Accessor `getStatus`. -/
def getStatus (s : State) : Status := s.status

/-- The raw sensor snapshot payload (`snapshot.val()`): the
`temperature` and `humidity` fields as delivered. -/
structure SensorSnap where
  temperature : JSVal
  humidity : JSVal
deriving DecidableEq

/-- The sensor `onValue` callback of `listenToSensorData`: a snapshot
that does not exist (`none`) changes nothing; otherwise coerce the two
fields with `parseFloat(...) || 0`, publish them together with a fresh
`lastUpdated` and `loading=false`, push the reading into the history
service, and reclassify the status. -/
def onSensorValue (s : State) (hist : List SensorReading)
    (snap : Option SensorSnap) (now : ℕ) : State × List SensorReading :=
  match snap with
  | none => (s, hist)
  | some d =>
    let temperature := parseFloatOr0 d.temperature
    let humidity := parseFloatOr0 d.humidity
    ({ s with
        temperature := temperature,
        humidity := humidity,
        lastUpdated := now,
        isLoading := false,
        status := updateStatus temperature humidity },
      SensorHistory.addReading hist temperature humidity now)

/-- The sensor `onValue` error callback: log and set only
`isLoading` to `false`. -/
def onSensorError (s : State) : State :=
  { s with isLoading := false }

/-- The motion `onValue` callback: an absent snapshot changes nothing,
otherwise the motion subject is set to the payload. -/
def onMotionValue (s : State) (snap : Option Bool) : State :=
  match snap with
  | none => s
  | some m => { s with motion := m }

end IoT

namespace Warehouse

/-- Value of a decimal digit character. -/
def digitVal (c : Char) : ℤ := (c.toNat : ℤ) - 48

/-- Days since the Unix epoch of a civil date (proleptic Gregorian,
month 1-12); the standard era/year-of-era computation used by
ECMAScript `MakeDay`.  The day component may be out of range and rolls
over arithmetically, as `MakeDay` does. -/
def daysFromCivil (y m d : ℤ) : ℤ :=
  let y0 := if m ≤ 2 then y - 1 else y
  let era := Int.fdiv y0 400
  let yoe := y0 - era * 400
  let mp := if 2 < m then m - 3 else m + 9
  let doy := (153 * mp + 2) / 5 + d - 1
  let doe := yoe * 365 + yoe / 4 - yoe / 100 + doy
  era * 146097 + doe - 719468

/-- JavaScript `new Date(string).getTime()`, with `none` for NaN
(Invalid Date).  Only the date-only form `YYYY-MM-DD` of the
ECMAScript Date Time String Format is modelled, which is the only form
the grammar shares with this feed's key alphabet; every other string —
in particular every key of the feed's `YYYY-MM-DD_HH-mm-ss` shape,
whose underscore and hyphenated time are outside the format — is
outside the mandated grammar and yields an Invalid Date. -/
def jsDateGetTime (s : String) : Option ℤ :=
  match s.toList with
  | [y1, y2, y3, y4, '-', m1, m2, '-', d1, d2] =>
    if (y1.isDigit ∧ y2.isDigit ∧ y3.isDigit ∧ y4.isDigit ∧
        m1.isDigit ∧ m2.isDigit ∧ d1.isDigit ∧ d2.isDigit) then
      let y := 1000 * digitVal y1 + 100 * digitVal y2 + 10 * digitVal y3 + digitVal y4
      let m := 10 * digitVal m1 + digitVal m2
      let d := 10 * digitVal d1 + digitVal d2
      if 1 ≤ m ∧ m ≤ 12 ∧ 1 ≤ d ∧ d ≤ 31 then
        some (daysFromCivil y m d * 86400000)
      else none
    else none
  | _ => none

/-- The sort comparators of `listenToWarehouseData`,
`(a, b) => new Date(b.x).getTime() - new Date(a.x).getTime()`, composed
with ECMAScript `SortCompare`, which maps a NaN comparator result to
+0: when either time value is NaN the pair compares as equal. -/
def jsCompareDesc (ta tb : Option ℤ) : ℤ :=
  match ta, tb with
  | some x, some y => y - x
  | _, _ => 0

/-- Insert an element behind every already-placed element it does not
strictly precede under the comparator (comparator result < 0 means
keep left of). -/
def sortInsert (cmp : α → α → ℤ) (x : α) : List α → List α
  | [] => [x]
  | y :: ys => if cmp x y < 0 then x :: y :: ys else y :: sortInsert cmp x ys

/-- `Array.prototype.sort(cmp)`: a stable comparison sort (stability is
required by ES2019); elements comparing equal keep their original
relative order. -/
def jsSort (cmp : α → α → ℤ) (l : List α) : List α :=
  l.foldl (fun acc x => sortInsert cmp x acc) []

/-- `InventoryTransaction` of the warehouse service. -/
structure InventoryTransaction where
  date : String
  amount : ℚ
  ton_sau : ℚ
  type : String
deriving DecidableEq

/-- `AlarmEvent` of the warehouse service. -/
structure AlarmEvent where
  timestamp : String
  event : String
deriving DecidableEq

/-- `DoorEvent` of the warehouse service. -/
structure DoorEvent where
  timestamp : String
  event : String
deriving DecidableEq

/-- A value stored under a top-level key of `data.history`: either a
nested mapping of timestamps to records with an optional `event` field
(the shape of the reserved `alarm`/`door` sub-histories), or a flat
record with optional `amount`/`ton_sau`/`type` fields.  A nested
object has no `amount` field, so its `amount` reads as `undefined`. -/
inductive HVal where
| nested (entries : List (String × Option String))
| flat (amount : Option ℚ) (ton_sau : Option ℚ) (type : Option String)
deriving DecidableEq

/-- Property access `data.history[k]` on the snapshot's history
object, keys listed in `Object.keys` iteration order. -/
def lookupKey (hist : List (String × HVal)) (k : String) : Option HVal :=
  (hist.find? (fun e => e.1 = k)).map (·.2)

/-- JavaScript `v || dflt` for an optional string field: `undefined`
and the empty string are falsy. -/
def jsOrStr (v : Option String) (dflt : String) : String :=
  match v with
  | some s => if s = "" then dflt else s
  | none => dflt

/-- The alarm branch of `listenToWarehouseData`: when
`data.history.alarm` is present, map each entry to an `AlarmEvent`
with `alarm.event || 'ALARM'` and sort by timestamp descending;
`none` means the subject is not republished. -/
def processAlarm (hist : List (String × HVal)) : Option (List AlarmEvent) :=
  match lookupKey hist "alarm" with
  | some (.nested entries) =>
    some (jsSort
      (fun a b => jsCompareDesc (jsDateGetTime a.timestamp) (jsDateGetTime b.timestamp))
      (entries.map (fun e => ⟨e.1, jsOrStr e.2 "ALARM"⟩)))
  | _ => none

/-- The door branch, symmetric to the alarm branch with default event
label `'OPEN'`. -/
def processDoor (hist : List (String × HVal)) : Option (List DoorEvent) :=
  match lookupKey hist "door" with
  | some (.nested entries) =>
    some (jsSort
      (fun a b => jsCompareDesc (jsDateGetTime a.timestamp) (jsDateGetTime b.timestamp))
      (entries.map (fun e => ⟨e.1, jsOrStr e.2 "OPEN"⟩)))
  | _ => none

/-- The push loop of the transaction branch: every top-level key other
than `alarm` and `door` whose record's `amount` is not `undefined`
becomes an `InventoryTransaction` (missing numeric fields coerced to 0
by `|| 0`, missing type to `'NHAP'`), in `Object.keys` iteration
order. -/
def pushedTransactions (hist : List (String × HVal)) : List InventoryTransaction :=
  hist.filterMap fun e =>
    match e.2 with
    | .nested _ => none
    | .flat amount tonSau ty =>
      if e.1 ≠ "alarm" ∧ e.1 ≠ "door" ∧ amount.isSome = true then
        some ⟨e.1, amount.getD 0, tonSau.getD 0, jsOrStr ty "NHAP"⟩
      else none

/-- The transaction branch of `listenToWarehouseData`: the pushed
transactions sorted by date descending with the `new Date` comparator. -/
def processTransactions (hist : List (String × HVal)) : List InventoryTransaction :=
  jsSort
    (fun a b => jsCompareDesc (jsDateGetTime a.date) (jsDateGetTime b.date))
    (pushedTransactions hist)

/-- JavaScript `String.prototype.split` on a single-character
separator, at the character level: the empty string splits to `[""]`,
a trailing separator yields a trailing empty field. -/
def splitChars (sep : Char) : List Char → List (List Char)
  | [] => [[]]
  | c :: cs =>
    if c = sep then [] :: splitChars sep cs
    else
      match splitChars sep cs with
      | [] => [[c]]
      | l :: ls => (c :: l) :: ls

/-- JavaScript `String.prototype.split` on a single-character
separator. -/
def jsSplit (s : String) (sep : Char) : List String :=
  (splitChars sep s.toList).map String.mk

/-- JavaScript `Number(string)` restricted to plain decimal literals:
a whitespace-only string is 0; otherwise the whole (trimmed) string
must be an optionally signed decimal numeral `ip.fp` with `k`
fractional digits, whose value is the rational
`sign * (ip * 10^k + fp) / 10^k`, else NaN (`none`).  Hex, exponent
and infinity forms do not occur in this feed and are not modelled. -/
def jsNumberStr (s : String) : Option ℚ :=
  let cs := ((s.toList.dropWhile (·.isWhitespace)).reverse.dropWhile
    (·.isWhitespace)).reverse
  if cs = [] then some 0
  else
    let signAndRest : ℤ × List Char :=
      match cs with
      | '-' :: rest => (-1, rest)
      | '+' :: rest => (1, rest)
      | _ => (1, cs)
    let ip := signAndRest.2.takeWhile (·.isDigit)
    let afterInt := signAndRest.2.dropWhile (·.isDigit)
    match afterInt with
    | [] =>
      if ip = [] then none
      else some (mkRat (signAndRest.1 * (digitsToNat ip : ℤ)) 1)
    | '.' :: rest =>
      let fp := rest.takeWhile (·.isDigit)
      let afterFrac := rest.dropWhile (·.isDigit)
      if afterFrac = [] ∧ ¬(ip = [] ∧ fp = []) then
        some (mkRat
          (signAndRest.1 *
            ((digitsToNat ip : ℤ) * 10 ^ fp.length + (digitsToNat fp : ℤ)))
          (10 ^ fp.length))
      else none
    | _ => none

/-- ECMAScript `ToIntegerOrInfinity` on a finite number: truncation
toward zero (`Int.tdiv` is T-division, so `truncQ (-1/2) = 0` exactly
as `ToIntegerOrInfinity(-0.5)` is `+0`). -/
def truncQ (q : ℚ) : ℤ := Int.tdiv q.num (q.den : ℤ)

/-- `new Date(year, month0, day, hour, minute, second).getTime()`:
NaN (`none`) as soon as one argument is `undefined`/NaN, otherwise the
`MakeDay`/`MakeTime` time value in milliseconds — months and all other
components roll over arithmetically, years 0-99 map to 1900-1999, and
a time value beyond ±8.64e15 is Invalid. -/
def newDateTime (y m0 d h mi s : Option ℚ) : Option ℤ :=
  match y, m0, d, h, mi, s with
  | some yq, some mq, some dq, some hq, some miq, some sq =>
    let yi0 := truncQ yq
    let yi := if 0 ≤ yi0 ∧ yi0 ≤ 99 then yi0 + 1900 else yi0
    let m0i := truncQ mq
    let ym := yi + Int.fdiv m0i 12
    let mn := Int.emod m0i 12
    let days := daysFromCivil ym (mn + 1) (truncQ dq)
    let tv := days * 86400000 + truncQ hq * 3600000 +
      truncQ miq * 60000 + truncQ sq * 1000
    if tv.natAbs ≤ 8640000000000000 then some tv else none
  | _, _, _, _, _, _ => none

/-- Character of a decimal digit (every call site passes a value
below 10). -/
def digitChar10 (d : ℕ) : Char :=
  match d with
  | 0 => '0'
  | 1 => '1'
  | 2 => '2'
  | 3 => '3'
  | 4 => '4'
  | 5 => '5'
  | 6 => '6'
  | 7 => '7'
  | 8 => '8'
  | _ => '9'

/-- Fuel-indexed decimal digit list of a natural number (most
significant digit first); one unit of fuel per digit. -/
def natDecimalAux : ℕ → ℕ → List Char
  | 0, _ => []
  | fuel + 1, n =>
    if n < 10 then [digitChar10 n]
    else natDecimalAux fuel (n / 10) ++ [digitChar10 (n % 10)]

/-- Decimal digit list of a natural number below `10^20`, which amply
covers the date time values rendered here (they are bounded by
±8.64e15). -/
def natDecimal (n : ℕ) : List Char := natDecimalAux 20 n

/-- Decimal rendering of an integer: digits with a possible leading
minus sign. -/
def intDecimal (i : ℤ) : String :=
  match i with
  | .ofNat n => ⟨natDecimal n⟩
  | .negSucc n => ⟨'-' :: natDecimal (n + 1)⟩

/-- The time value of the `Date` that `formatDate` constructs from its
two underscore-separated parts: each part is split on `-` and mapped
through `Number`, destructured components past the end of the list are
`undefined`, the month is shifted to 0-based, and the six values go to
the `Date` constructor; `none` is an Invalid Date. -/
def timeValueOf (datePart timePart : String) : Option ℤ :=
  let dcs := (jsSplit datePart '-').map jsNumberStr
  let tcs := (jsSplit timePart '-').map jsNumberStr
  let year := dcs[0]?.getD none
  let month := dcs[1]?.getD none
  let day := dcs[2]?.getD none
  let hour := tcs[0]?.getD none
  let minute := tcs[1]?.getD none
  let second := tcs[2]?.getD none
  newDateTime year (month.map (· - 1)) day hour minute second

/-- `WarehouseService.formatDate`.  The body splits on `_` then on
`-`, maps `Number` over the components, builds a `Date` and renders it
with `toLocaleString('vi-VN', ...)`.  When the input has no underscore
the destructured `timePart` is `undefined` and `timePart.split('-')`
throws a TypeError, which the surrounding `try`/`catch` turns into the
original string.  A constructed Invalid Date renders as the string
`"Invalid Date"` (ECMA-402); the glyphs of a valid date's locale
rendering are locale-data defined and are modelled as the token
`"viVN:"` followed by the decimal time value of the date. -/
def formatDate (dateString : String) : String :=
  let parts := jsSplit dateString '_'
  match parts[1]? with
  | none => dateString
  | some timePart =>
    match timeValueOf (parts[0]?.getD "") timePart with
    | none => "Invalid Date"
    | some tv => "viVN:" ++ intDecimal tv

end Warehouse

namespace Dashboard

/-- The fixed auto-dismiss delay of the theft alert (8000 ms). -/
def alertDelayMs : ℕ := 8000

/-- `DashboardComponent.triggerTheftAlert` as it affects the timer
queue: it publishes `true` on `intruderAlert$` and schedules one
`setTimeout` publishing `false` after `alertDelayMs`; the previously
scheduled timeout, if any, is left in the queue (no `clearTimeout`). -/
def triggerTheftAlert (now : ℕ) (pendingClears : List ℕ) : List ℕ :=
  pendingClears ++ [now + alertDelayMs]

/-- The firing times of every auto-dismiss timeout produced by a
sequence of motion-triggered alerts. -/
def scheduledClears (triggers : List ℕ) : List ℕ :=
  triggers.foldl (fun acc t => triggerTheftAlert t acc) []

/-- Latest event time of a list that is at or before instant `t`. -/
def lastAt (times : List ℕ) (t : ℕ) : Option ℕ :=
  (times.filter (· ≤ t)).max?

/-- Value of the `intruderAlert$` flag at instant `t`: `true` when the
most recent emission at or before `t` was a trigger (`next(true)`),
`false` when it was a timeout firing (`next(false)`) or when nothing
has happened yet.  A clear coinciding exactly with a trigger is taken
to win the tie; the inputs below avoid ties. -/
def intruderAlertAt (triggers : List ℕ) (t : ℕ) : Bool :=
  match lastAt triggers t, lastAt (scheduledClears triggers) t with
  | none, _ => false
  | some _, none => true
  | some tr, some cl => decide (cl < tr)

end Dashboard

/-!  Helper lemmas.  -/

/-- One more `addReading` call acts on the window produced so far. -/
lemma SensorHistory.windowAfter_concat (rs : List SensorReading) (r : SensorReading) :
    SensorHistory.windowAfter (rs ++ [r]) =
      SensorHistory.addReading (SensorHistory.windowAfter rs)
        r.temperature r.humidity r.timestamp := by
  simp [SensorHistory.windowAfter, List.foldl_append]

/-- The window after any push sequence is exactly the suffix of the
last `maxReadings` pushes. -/
lemma SensorHistory.windowAfter_eq_drop (rs : List SensorReading) :
    SensorHistory.windowAfter rs = rs.drop (rs.length - SensorHistory.maxReadings) := by
  induction rs using List.reverseRecOn with
  | nil => rfl
  | append_singleton rs r ih =>
    rw [SensorHistory.windowAfter_concat, ih]
    show SensorHistory.addReading _ _ _ _ = _
    rw [SensorHistory.addReading]
    have hr : (⟨r.temperature, r.humidity, r.timestamp⟩ : SensorReading) = r := rfl
    by_cases hlen : rs.length < SensorHistory.maxReadings
    · have hz : rs.length - SensorHistory.maxReadings = 0 := by omega
      have hz2 : (rs ++ [r]).length - SensorHistory.maxReadings = 0 := by
        simp only [List.length_append, List.length_singleton]; omega
      simp only [hz, hz2, List.drop_zero, hr]
      rw [if_neg]
      simp only [List.length_append, List.length_singleton]
      omega
    · push_neg at hlen
      have hm : 0 < SensorHistory.maxReadings := by decide
      have haux : (rs ++ [r]).length = rs.length + 1 := by simp
      have hdlen : (rs.drop (rs.length - SensorHistory.maxReadings)).length =
          SensorHistory.maxReadings := by
        rw [List.length_drop]; omega
      rw [if_pos]
      · have hne : rs.drop (rs.length - SensorHistory.maxReadings) ≠ [] := by
          intro h
          rw [h] at hdlen
          simp [SensorHistory.maxReadings] at hdlen
        rw [hr, List.tail_append_singleton_of_ne_nil hne, List.tail_drop]
        rw [List.drop_append_of_le_length (by omega)]
        have harg : rs.length - SensorHistory.maxReadings + 1 =
            (rs ++ [r]).length - SensorHistory.maxReadings := by omega
        rw [harg]
      · rw [List.length_append, hdlen]
        simp [SensorHistory.maxReadings]

/-- Folding addition of mapped values equals the initial accumulator
plus the mapped sum. -/
lemma foldl_add_map (f : SensorReading → ℚ) :
    ∀ (l : List SensorReading) (a : ℚ),
      l.foldl (fun acc r => acc + f r) a = a + (l.map f).sum := by
  intro l
  induction l with
  | nil => intro a; simp
  | cons x xs ih =>
    intro a
    simp only [List.foldl_cons, List.map_cons, List.sum_cons, ih]
    ring

/-- The initial accumulator is below a `max`-fold. -/
lemma init_le_foldl_max : ∀ (l : List ℚ) (b : ℚ), b ≤ l.foldl max b := by
  intro l
  induction l with
  | nil => intro b; simp
  | cons x xs ih =>
    intro b
    exact le_trans (le_max_left b x) (ih (max b x))

/-- Every member is below a `max`-fold. -/
lemma mem_le_foldl_max : ∀ (l : List ℚ) (b x : ℚ), x ∈ l → x ≤ l.foldl max b := by
  intro l
  induction l with
  | nil => intro b x hx; simp at hx
  | cons y ys ih =>
    intro b x hx
    rcases List.mem_cons.mp hx with h | h
    · subst h
      exact le_trans (le_max_right b x) (init_le_foldl_max ys (max b x))
    · exact ih (max b y) x h

/-- A `min`-fold is below the initial accumulator. -/
lemma foldl_min_le_init : ∀ (l : List ℚ) (b : ℚ), l.foldl min b ≤ b := by
  intro l
  induction l with
  | nil => intro b; simp
  | cons x xs ih =>
    intro b
    exact le_trans (ih (min b x)) (min_le_left b x)

/-- A `min`-fold is below every member. -/
lemma foldl_min_le_mem : ∀ (l : List ℚ) (b x : ℚ), x ∈ l → l.foldl min b ≤ x := by
  intro l
  induction l with
  | nil => intro b x hx; simp at hx
  | cons y ys ih =>
    intro b x hx
    rcases List.mem_cons.mp hx with h | h
    · subst h
      exact le_trans (foldl_min_le_init ys (min b x)) (min_le_right b x)
    · exact ih (min b y) x h

/-- Every member of a nonempty list is below its `mathMax`. -/
lemma le_mathMax (l : List ℚ) (x : ℚ) (hx : x ∈ l) : x ≤ SensorHistory.mathMax l := by
  cases l with
  | nil => simp at hx
  | cons y ys =>
    rw [SensorHistory.mathMax]
    rcases List.mem_cons.mp hx with h | h
    · subst h; exact init_le_foldl_max ys x
    · exact mem_le_foldl_max ys y x h

/-- `mathMin` of a nonempty list is below every member. -/
lemma mathMin_le (l : List ℚ) (x : ℚ) (hx : x ∈ l) : SensorHistory.mathMin l ≤ x := by
  cases l with
  | nil => simp at hx
  | cons y ys =>
    rw [SensorHistory.mathMin]
    rcases List.mem_cons.mp hx with h | h
    · subst h; exact foldl_min_le_init ys x
    · exact foldl_min_le_mem ys y x h

/-- An element that strictly precedes nothing already placed is
appended at the end by `sortInsert`. -/
lemma Warehouse.sortInsert_append (cmp : α → α → ℤ) (x : α) :
    ∀ (l : List α), (∀ y ∈ l, ¬ cmp x y < 0) →
      Warehouse.sortInsert cmp x l = l ++ [x] := by
  intro l
  induction l with
  | nil => intro _; rfl
  | cons y ys ih =>
    intro h
    rw [Warehouse.sortInsert, if_neg (h y (List.mem_cons_self y ys))]
    rw [ih (fun z hz => h z (List.mem_cons_of_mem y hz))]
    rfl

/-- A comparator that declares every pair of list elements equal makes
`jsSort` the identity: the stable sort keeps the original order. -/
lemma Warehouse.jsSort_id (cmp : α → α → ℤ) (l : List α)
    (h : ∀ a ∈ l, ∀ b ∈ l, cmp a b = 0) : Warehouse.jsSort cmp l = l := by
  suffices key : ∀ (l' acc : List α), (∀ a ∈ l', ∀ b ∈ l', cmp a b = 0) →
      (∀ a ∈ l', ∀ b ∈ acc, cmp a b = 0) →
      l'.foldl (fun acc x => Warehouse.sortInsert cmp x acc) acc = acc ++ l' by
    have := key l [] h (by intro a _ b hb; simp at hb)
    simpa [Warehouse.jsSort] using this
  intro l'
  induction l' with
  | nil => intro acc _ _; simp
  | cons x xs ih =>
    intro acc hl hacc
    rw [List.foldl_cons]
    rw [Warehouse.sortInsert_append cmp x acc
      (fun y hy => by rw [hacc x (List.mem_cons_self x xs) y hy]; omega)]
    rw [ih (acc ++ [x])
      (fun a ha b hb => hl a (List.mem_cons_of_mem x ha) b (List.mem_cons_of_mem x hb))
      (fun a ha b hb => by
        rcases List.mem_append.mp hb with h' | h'
        · exact hacc a (List.mem_cons_of_mem x ha) b h'
        · simp at h'
          rw [h']
          exact hl a (List.mem_cons_of_mem x ha) x (List.mem_cons_self x xs))]
    simp

/-- Membership in `sortInsert`. -/
lemma Warehouse.mem_sortInsert (cmp : α → α → ℤ) (x a : α) :
    ∀ (l : List α), a ∈ Warehouse.sortInsert cmp x l ↔ a = x ∨ a ∈ l := by
  intro l
  induction l with
  | nil => simp [Warehouse.sortInsert]
  | cons y ys ih =>
    rw [Warehouse.sortInsert]
    by_cases h : cmp x y < 0
    · rw [if_pos h]
      exact List.mem_cons
    · rw [if_neg h]
      simp only [List.mem_cons, ih]
      tauto

/-- `jsSort` neither adds nor removes elements. -/
lemma Warehouse.mem_jsSort (cmp : α → α → ℤ) (l : List α) (a : α) :
    a ∈ Warehouse.jsSort cmp l ↔ a ∈ l := by
  suffices key : ∀ (l' acc : List α),
      a ∈ l'.foldl (fun acc x => Warehouse.sortInsert cmp x acc) acc ↔ a ∈ acc ∨ a ∈ l' by
    have := key l []
    simpa [Warehouse.jsSort] using this
  intro l'
  induction l' with
  | nil => intro acc; simp
  | cons x xs ih =>
    intro acc
    rw [List.foldl_cons, ih (Warehouse.sortInsert cmp x acc),
      Warehouse.mem_sortInsert]
    simp only [List.mem_cons]
    tauto

/-- Every pushed transaction carries one of the snapshot's keys as its
date. -/
lemma Warehouse.date_mem_keys (hist : List (String × Warehouse.HVal))
    (tx : Warehouse.InventoryTransaction) (htx : tx ∈ Warehouse.pushedTransactions hist) :
    tx.date ∈ hist.map Prod.fst ∧ tx.date ≠ "alarm" ∧ tx.date ≠ "door" := by
  rw [Warehouse.pushedTransactions, List.mem_filterMap] at htx
  obtain ⟨e, he, heq⟩ := htx
  cases hv : e.2 with
  | nested entries => rw [hv] at heq; simp at heq
  | flat amount tonSau ty =>
    rw [hv] at heq
    simp only at heq
    by_cases hc : e.1 ≠ "alarm" ∧ e.1 ≠ "door" ∧ amount.isSome = true
    · rw [if_pos hc] at heq
      have hdate : tx.date = e.1 := by
        cases heq with
        | refl => rfl
      refine ⟨?_, ?_, ?_⟩
      · rw [hdate]; exact List.mem_map.mpr ⟨e, he, rfl⟩
      · rw [hdate]; exact hc.1
      · rw [hdate]; exact hc.2.1
    · rw [if_neg hc] at heq
      simp at heq

/-- Splitting on a character that does not occur yields the whole
list back. -/
lemma Warehouse.splitChars_not_mem (sep : Char) :
    ∀ (cs : List Char), sep ∉ cs → Warehouse.splitChars sep cs = [cs] := by
  intro cs
  induction cs with
  | nil => intro _; rfl
  | cons c cs ih =>
    intro h
    rw [Warehouse.splitChars, if_neg (by
      intro heq
      exact h (heq ▸ List.mem_cons_self c cs))]
    rw [ih (fun hmem => h (List.mem_cons_of_mem c hmem))]

/-- A split result is never the empty list of fields. -/
lemma Warehouse.splitChars_exists_cons (sep : Char) :
    ∀ cs : List Char, ∃ l ls, Warehouse.splitChars sep cs = l :: ls := by
  intro cs
  induction cs with
  | nil => exact ⟨[], [], rfl⟩
  | cons c cs ih =>
    by_cases hc : c = sep
    · exact ⟨[], Warehouse.splitChars sep cs, by rw [Warehouse.splitChars, if_pos hc]⟩
    · obtain ⟨l, ls, hE⟩ := ih
      refine ⟨c :: l, ls, ?_⟩
      rw [Warehouse.splitChars, if_neg hc, hE]

/-- Splitting on a character that does occur yields at least two
fields. -/
lemma Warehouse.splitChars_length_of_mem (sep : Char) :
    ∀ cs : List Char, sep ∈ cs → 2 ≤ (Warehouse.splitChars sep cs).length := by
  intro cs
  induction cs with
  | nil => intro h; simp at h
  | cons c cs ih =>
    intro h
    by_cases hc : c = sep
    · rw [Warehouse.splitChars, if_pos hc]
      obtain ⟨l, ls, hE⟩ := Warehouse.splitChars_exists_cons sep cs
      rw [hE]
      simp only [List.length_cons]
      omega
    · have hm : sep ∈ cs := by
        rcases List.mem_cons.mp h with h' | h'
        · exact absurd h'.symm hc
        · exact h'
      rw [Warehouse.splitChars, if_neg hc]
      obtain ⟨l, ls, hE⟩ := Warehouse.splitChars_exists_cons sep cs
      rw [hE]
      have hlen := ih hm
      rw [hE] at hlen
      show 2 ≤ ((c :: l) :: ls).length
      simp only [List.length_cons] at hlen ⊢
      omega

/-- No decimal digit character is an underscore. -/
lemma Warehouse.digitChar10_ne_underscore (d : ℕ) :
    Warehouse.digitChar10 d ≠ '_' := by
  unfold Warehouse.digitChar10
  split <;> decide

/-- The decimal digit list of a natural number never contains an
underscore. -/
lemma Warehouse.natDecimalAux_no_underscore :
    ∀ (fuel n : ℕ), '_' ∉ Warehouse.natDecimalAux fuel n := by
  intro fuel
  induction fuel with
  | zero => intro n h; simp [Warehouse.natDecimalAux] at h
  | succ fuel ih =>
    intro n h
    rw [Warehouse.natDecimalAux] at h
    by_cases h10 : n < 10
    · rw [if_pos h10] at h
      simp only [List.mem_singleton] at h
      exact Warehouse.digitChar10_ne_underscore n h.symm
    · rw [if_neg h10] at h
      rcases List.mem_append.mp h with h' | h'
      · exact ih (n / 10) h'
      · simp only [List.mem_singleton] at h'
        exact Warehouse.digitChar10_ne_underscore (n % 10) h'.symm

/-- The decimal rendering of an integer never contains an
underscore. -/
lemma Warehouse.intDecimal_no_underscore (i : ℤ) :
    '_' ∉ (Warehouse.intDecimal i).data := by
  cases i with
  | ofNat n =>
    intro h
    exact Warehouse.natDecimalAux_no_underscore 20 n h
  | negSucc n =>
    intro h
    have h2 : '_' ∈ '-' :: Warehouse.natDecimal (n + 1) := h
    rcases List.mem_cons.mp h2 with h' | h'
    · exact absurd h' (by decide)
    · exact Warehouse.natDecimalAux_no_underscore 20 (n + 1) h'

/-!  Claim theorems.  -/

/-- Claim C1: starting from the empty window, any sequence of `N`
`addReading` calls with capacity `C = maxReadings = 100` leaves the
window holding exactly the `C` most recently pushed readings in
arrival order — the suffix `drop (N - C)` of the push sequence — and
its length is `min N C`, so the caller-visible length never exceeds
the capacity; the oldest reading (index 0) is shifted off exactly when
the length would exceed `C`. -/
theorem c1_rolling_window_bound (rs : List SensorReading) :
    SensorHistory.windowAfter rs =
      rs.drop (rs.length - SensorHistory.maxReadings) ∧
    (SensorHistory.windowAfter rs).length = min rs.length SensorHistory.maxReadings := by
  refine ⟨SensorHistory.windowAfter_eq_drop rs, ?_⟩
  rw [SensorHistory.windowAfter_eq_drop rs, List.length_drop]
  omega

/-- Claim C2: `updateStatus` is a total pure function of the
temperature/humidity pair agreeing everywhere with the specification's
classifier — Optimal iff 16 ≤ t ≤ 26 and 30 ≤ h ≤ 60, else Warning iff
12 ≤ t ≤ 30 and 20 ≤ h ≤ 70, else Critical, all bounds inclusive —
and takes the claimed values at (20,45), (29,65), (5,90), (26,60) and
(26.01,60). -/
theorem c2_status_classifier :
    (∀ t h : ℚ, IoT.updateStatus t h = IoT.classifySpec t h) ∧
    IoT.updateStatus 20 45 = Status.optimal ∧
    IoT.updateStatus 29 65 = Status.warning ∧
    IoT.updateStatus 5 90 = Status.critical ∧
    IoT.updateStatus 26 60 = Status.optimal ∧
    IoT.updateStatus 26.01 60 = Status.warning := by
  have hspec : ∀ t h : ℚ, IoT.updateStatus t h = IoT.classifySpec t h := by
    intro t h
    unfold IoT.updateStatus IoT.classifySpec
    by_cases h1 : 16 ≤ t ∧ t ≤ 26 ∧ 30 ≤ h ∧ h ≤ 60
    · rw [if_pos h1, if_pos (by
        simp only [Bool.and_eq_true, decide_eq_true_eq]
        tauto)]
    · rw [if_neg h1]
      by_cases h2 : 12 ≤ t ∧ t ≤ 30 ∧ 20 ≤ h ∧ h ≤ 70
      · rw [if_pos h2, if_neg (by
          simp only [Bool.and_eq_true, decide_eq_true_eq]
          tauto), if_pos (by
          simp only [Bool.and_eq_true, decide_eq_true_eq]
          tauto)]
      · rw [if_neg h2, if_neg (by
          simp only [Bool.and_eq_true, decide_eq_true_eq]
          tauto), if_neg (by
          simp only [Bool.and_eq_true, decide_eq_true_eq]
          tauto)]
  refine ⟨hspec, ?_, ?_, ?_, ?_, ?_⟩
  · rw [hspec]; simp only [IoT.classifySpec]; rw [if_pos (by norm_num)]
  · rw [hspec]; simp only [IoT.classifySpec]
    rw [if_neg (by norm_num), if_pos (by norm_num)]
  · rw [hspec]; simp only [IoT.classifySpec]
    rw [if_neg (by norm_num), if_neg (by norm_num)]
  · rw [hspec]; simp only [IoT.classifySpec]; rw [if_pos (by norm_num)]
  · rw [hspec]; simp only [IoT.classifySpec]
    rw [if_neg (by norm_num), if_pos (by norm_num)]

/-- Claim C4: after a successful sensor ingest, the feed-error
callback republishes only `loading = false`; the published
temperature, humidity, status and last-updated instant keep exactly
the values of the last successful ingest. -/
theorem c4_error_keeps_last_known_good (s : IoT.State)
    (hist : List SensorReading) (d : IoT.SensorSnap) (now : ℕ) :
    IoT.onSensorError (IoT.onSensorValue s hist (some d) now).1 =
      { (IoT.onSensorValue s hist (some d) now).1 with isLoading := false } ∧
    (IoT.onSensorError (IoT.onSensorValue s hist (some d) now).1).temperature =
      parseFloatOr0 d.temperature ∧
    (IoT.onSensorError (IoT.onSensorValue s hist (some d) now).1).humidity =
      parseFloatOr0 d.humidity ∧
    (IoT.onSensorError (IoT.onSensorValue s hist (some d) now).1).status =
      IoT.updateStatus (parseFloatOr0 d.temperature) (parseFloatOr0 d.humidity) ∧
    (IoT.onSensorError (IoT.onSensorValue s hist (some d) now).1).lastUpdated = now ∧
    (IoT.onSensorError (IoT.onSensorValue s hist (some d) now).1).isLoading = false :=
  ⟨rfl, rfl, rfl, rfl, rfl, rfl⟩

/-- Claim C7: on the empty window every statistic returns the sentinel
0, and on every nonempty window the minimum is at most the average and
the average at most the maximum, independently for temperature and for
humidity. -/
theorem c7_stats_bounds :
    (SensorHistory.getAverageTemperature [] = 0 ∧
     SensorHistory.getAverageHumidity [] = 0 ∧
     SensorHistory.getMaxTemperature [] = 0 ∧
     SensorHistory.getMinTemperature [] = 0 ∧
     SensorHistory.getMaxHumidity [] = 0 ∧
     SensorHistory.getMinHumidity [] = 0) ∧
    ∀ l : List SensorReading, l ≠ [] →
      SensorHistory.getMinTemperature l ≤ SensorHistory.getAverageTemperature l ∧
      SensorHistory.getAverageTemperature l ≤ SensorHistory.getMaxTemperature l ∧
      SensorHistory.getMinHumidity l ≤ SensorHistory.getAverageHumidity l ∧
      SensorHistory.getAverageHumidity l ≤ SensorHistory.getMaxHumidity l := by
  refine ⟨⟨rfl, rfl, rfl, rfl, rfl, rfl⟩, ?_⟩
  intro l hl
  have hne : l.length ≠ 0 := fun h => hl (List.length_eq_zero.mp h)
  have hpos : (0 : ℚ) < l.length := by
    have := Nat.pos_of_ne_zero hne
    exact_mod_cast this
  have bounds : ∀ f : SensorReading → ℚ,
      SensorHistory.mathMin (l.map f) ≤
        (l.foldl (fun acc r => acc + f r) 0) / l.length ∧
      (l.foldl (fun acc r => acc + f r) 0) / l.length ≤
        SensorHistory.mathMax (l.map f) := by
    intro f
    rw [foldl_add_map f l 0, zero_add]
    constructor
    · rw [le_div_iff₀ hpos]
      have hsum : (l.map f).length • SensorHistory.mathMin (l.map f) ≤ (l.map f).sum :=
        List.card_nsmul_le_sum (l.map f) _ (fun x hx => mathMin_le (l.map f) x hx)
      rw [List.length_map] at hsum
      calc SensorHistory.mathMin (l.map f) * l.length
          = l.length • SensorHistory.mathMin (l.map f) := by
            rw [nsmul_eq_mul, mul_comm]
        _ ≤ (l.map f).sum := hsum
    · rw [div_le_iff₀ hpos]
      have hsum : (l.map f).sum ≤ (l.map f).length • SensorHistory.mathMax (l.map f) :=
        List.sum_le_card_nsmul (l.map f) _ (fun x hx => le_mathMax (l.map f) x hx)
      rw [List.length_map] at hsum
      calc (l.map f).sum
          ≤ l.length • SensorHistory.mathMax (l.map f) := hsum
        _ = SensorHistory.mathMax (l.map f) * l.length := by
            rw [nsmul_eq_mul, mul_comm]
  have ht := bounds (·.temperature)
  have hh := bounds (·.humidity)
  simp only [SensorHistory.getMinTemperature, SensorHistory.getMaxTemperature,
    SensorHistory.getAverageTemperature, SensorHistory.getMinHumidity,
    SensorHistory.getMaxHumidity, SensorHistory.getAverageHumidity,
    if_neg hne]
  exact ⟨ht.1, ht.2, hh.1, hh.2⟩

/-- Witness for C7 at the one-element window [(25, 50, 0)]. -/
theorem c7_stats_bounds_witness :
    SensorHistory.getMinTemperature [⟨25, 50, 0⟩] ≤
      SensorHistory.getAverageTemperature [⟨25, 50, 0⟩] ∧
    SensorHistory.getAverageTemperature [⟨25, 50, 0⟩] ≤
      SensorHistory.getMaxTemperature [⟨25, 50, 0⟩] ∧
    SensorHistory.getMinHumidity [⟨25, 50, 0⟩] ≤
      SensorHistory.getAverageHumidity [⟨25, 50, 0⟩] ∧
    SensorHistory.getAverageHumidity [⟨25, 50, 0⟩] ≤
      SensorHistory.getMaxHumidity [⟨25, 50, 0⟩] :=
  c7_stats_bounds.2 [⟨25, 50, 0⟩] (by decide)

/-- Claim C9, settled against the code: two motion alerts 4000 ms
apart (less than the 8000 ms expiry delay) leave BOTH auto-dismiss
timeouts scheduled — the first is never cancelled — so two
alert-cleared emissions fire, and the alert flag is already false at
t = 8000 ms, one full delay after the FIRST trigger and only 4000 ms
after the most recent one, contradicting the claimed
restart-on-retrigger debounce. -/
theorem c9_alert_not_debounced :
    Dashboard.scheduledClears [0, 4000] = [8000, 12000] ∧
    (Dashboard.scheduledClears [0, 4000]).length = 2 ∧
    Dashboard.intruderAlertAt [0, 4000] 7999 = true ∧
    Dashboard.intruderAlertAt [0, 4000] 8000 = false ∧
    8000 < 4000 + Dashboard.alertDelayMs := by
  decide

/-- Claim C10: at construction the IoT service publishes temperature
0, humidity 0, motion `false`, status `'optimal'` and `loading =
true`, and a snapshot that does not exist (`snapshot.exists()` false)
leaves both the sensor state and the motion flag unchanged. -/
theorem c10_initial_defaults :
    (∀ now0 : ℕ,
      IoT.getTemperature (IoT.initState now0) = 0 ∧
      IoT.getHumidity (IoT.initState now0) = 0 ∧
      IoT.getMotion (IoT.initState now0) = false ∧
      IoT.getStatus (IoT.initState now0) = Status.optimal ∧
      (IoT.initState now0).isLoading = true) ∧
    (∀ (s : IoT.State) (hist : List SensorReading) (now : ℕ),
      IoT.onSensorValue s hist none now = (s, hist)) ∧
    (∀ s : IoT.State, IoT.onMotionValue s none = s) :=
  ⟨fun _ => ⟨rfl, rfl, rfl, rfl, rfl⟩, fun _ _ _ => rfl, fun _ => rfl⟩

/-- A ledger history with three transaction records whose keys arrive
in ascending chronological order, the malformed one first. -/
def c3hist : List (String × Warehouse.HVal) :=
  [("not-a-date", .flat (some 3) (some 50) (some "NHAP")),
   ("2025-01-01_00-00-00", .flat (some 5) (some 100) (some "NHAP")),
   ("2026-01-05_00-00-00", .flat (some 7) (some 107) (some "NHAP"))]

/-- Claim C3 is false on the code: the feed's `YYYY-MM-DD_HH-mm-ss`
keys are not ECMAScript Date Time Strings, so `new Date(key)` is an
Invalid Date for every one of them, the comparator returns NaN
(treated as equal), and the stable sort leaves the snapshot's
iteration order untouched — here ascending, not strictly descending —
with the malformed entry kept first rather than placed last. -/
theorem c3_counterexample :
    Warehouse.processTransactions c3hist =
      [⟨"not-a-date", 3, 50, "NHAP"⟩,
       ⟨"2025-01-01_00-00-00", 5, 100, "NHAP"⟩,
       ⟨"2026-01-05_00-00-00", 7, 107, "NHAP"⟩] ∧
    Warehouse.processTransactions c3hist ≠
      [⟨"2026-01-05_00-00-00", 7, 107, "NHAP"⟩,
       ⟨"2025-01-01_00-00-00", 5, 100, "NHAP"⟩,
       ⟨"not-a-date", 3, 50, "NHAP"⟩] :=
  ⟨by decide, by decide⟩

/-- Claim C3 amended: since every key of the snapshot parses to an
Invalid Date (as all keys of the feed's underscore format do), the
comparator compares every pair as equal and the stable sort is the
identity — the reconciled transactions are exactly the pushed entries
in key-iteration order, malformed entries staying in place; no entry
aborts reconciliation of the others. -/
theorem c3_amended_iteration_order (hist : List (String × Warehouse.HVal))
    (hnan : ∀ k ∈ hist.map Prod.fst, Warehouse.jsDateGetTime k = none) :
    Warehouse.processTransactions hist = Warehouse.pushedTransactions hist := by
  rw [Warehouse.processTransactions]
  refine Warehouse.jsSort_id _ _ ?_
  intro a ha b hb
  have hda := (Warehouse.date_mem_keys hist a ha).1
  have hdb := (Warehouse.date_mem_keys hist b hb).1
  rw [hnan a.date hda, hnan b.date hdb]
  rfl

/-- Witness for C3's amended statement on the concrete snapshot. -/
theorem c3_amended_iteration_order_witness :
    Warehouse.processTransactions c3hist = Warehouse.pushedTransactions c3hist :=
  c3_amended_iteration_order c3hist (by decide)

/-- Claim C5 is false on the code: an input with the right underscore
but a wrong component count does not throw — the missing second
becomes NaN, `new Date` is Invalid, and `toLocaleString` renders the
string `"Invalid Date"`, which is not the original input. -/
theorem c5_counterexample :
    Warehouse.formatDate "2025-12-20_20-11" = "Invalid Date" ∧
    Warehouse.formatDate "2025-12-20_20-11" ≠ "2025-12-20_20-11" :=
  ⟨rfl, by decide⟩

set_option maxRecDepth 4000 in
/-- Time value of the out-of-range date 2025-13-01 00:00:00: month 13
rolls over to January 2026. -/
lemma Warehouse.timeValue_rollover_a :
    Warehouse.timeValueOf "2025-13-01" "00-00-00" = some 1767225600000 := by
  simp only [Warehouse.timeValueOf]
  rw [show (Warehouse.jsSplit "2025-13-01" '-').map Warehouse.jsNumberStr =
      [some (mkRat 2025 1), some (mkRat 13 1), some (mkRat 1 1)] from by decide]
  rw [show (Warehouse.jsSplit "00-00-00" '-').map Warehouse.jsNumberStr =
      [some (mkRat 0 1), some (mkRat 0 1), some (mkRat 0 1)] from by decide]
  rw [show (([some (mkRat 2025 1), some (mkRat 13 1), some (mkRat 1 1)] :
      List (Option ℚ))[1]?.getD none).map (· - 1) = some (mkRat 12 1) from by
    with_unfolding_all decide]
  decide

set_option maxRecDepth 4000 in
/-- Time value of the in-range date 2026-01-01 00:00:00, the
normalized form of 2025-13-01. -/
lemma Warehouse.timeValue_rollover_b :
    Warehouse.timeValueOf "2026-01-01" "00-00-00" = some 1767225600000 := by
  simp only [Warehouse.timeValueOf]
  rw [show (Warehouse.jsSplit "2026-01-01" '-').map Warehouse.jsNumberStr =
      [some (mkRat 2026 1), some (mkRat 1 1), some (mkRat 1 1)] from by decide]
  rw [show (Warehouse.jsSplit "00-00-00" '-').map Warehouse.jsNumberStr =
      [some (mkRat 0 1), some (mkRat 0 1), some (mkRat 0 1)] from by decide]
  rw [show (([some (mkRat 2026 1), some (mkRat 1 1), some (mkRat 1 1)] :
      List (Option ℚ))[1]?.getD none).map (· - 1) = some (mkRat 0 1) from by
    with_unfolding_all decide]
  decide

set_option maxRecDepth 4000 in
/-- Time value of the feed-format example date 2025-12-20 20:11:20. -/
lemma Warehouse.timeValue_example :
    Warehouse.timeValueOf "2025-12-20" "20-11-20" = some 1766261480000 := by
  simp only [Warehouse.timeValueOf]
  rw [show (Warehouse.jsSplit "2025-12-20" '-').map Warehouse.jsNumberStr =
      [some (mkRat 2025 1), some (mkRat 12 1), some (mkRat 20 1)] from by decide]
  rw [show (Warehouse.jsSplit "20-11-20" '-').map Warehouse.jsNumberStr =
      [some (mkRat 20 1), some (mkRat 11 1), some (mkRat 20 1)] from by decide]
  rw [show (([some (mkRat 2025 1), some (mkRat 12 1), some (mkRat 20 1)] :
      List (Option ℚ))[1]?.getD none).map (· - 1) = some (mkRat 11 1) from by
    with_unfolding_all decide]
  decide

set_option maxRecDepth 4000 in
/-- Claim C5 amended: `formatDate` returns the original string
unchanged exactly for inputs containing no underscore — only there
does the body throw (on `timePart.split`), to be caught by the
`try`/`catch`, and for every underscored input the result differs
from the input.  For underscored inputs nothing throws: whenever the
six parsed components give a NaN time value (as a missing or
non-numeric component does) the result is the string
`"Invalid Date"`, and whenever they give a finite time value the
result is the locale rendering of that date — so out-of-range
calendar components roll over arithmetically into a valid rendered
date (month 13 of 2025 renders as January 2026) — never the original
string.  No parse failure propagates to the caller. -/
theorem c5_amended_fallback :
    (∀ s : String, '_' ∉ s.toList → Warehouse.formatDate s = s) ∧
    (∀ s : String, '_' ∈ s.toList → Warehouse.formatDate s ≠ s) ∧
    (∀ (s tp : String), (Warehouse.jsSplit s '_')[1]? = some tp →
      Warehouse.timeValueOf ((Warehouse.jsSplit s '_')[0]?.getD "") tp = none →
      Warehouse.formatDate s = "Invalid Date") ∧
    (∀ (s tp : String) (tv : ℤ), (Warehouse.jsSplit s '_')[1]? = some tp →
      Warehouse.timeValueOf ((Warehouse.jsSplit s '_')[0]?.getD "") tp = some tv →
      Warehouse.formatDate s = "viVN:" ++ Warehouse.intDecimal tv) ∧
    Warehouse.formatDate "2025-13-01_00-00-00" =
      Warehouse.formatDate "2026-01-01_00-00-00" ∧
    Warehouse.formatDate "2025-13-01_00-00-00" ≠ "Invalid Date" ∧
    Warehouse.formatDate "2025-12-20_20-11" = "Invalid Date" := by
  have hinv : ∀ (s tp : String), (Warehouse.jsSplit s '_')[1]? = some tp →
      Warehouse.timeValueOf ((Warehouse.jsSplit s '_')[0]?.getD "") tp = none →
      Warehouse.formatDate s = "Invalid Date" := by
    intro s tp h1 h2
    simp only [Warehouse.formatDate, h1, h2]
  have hval : ∀ (s tp : String) (tv : ℤ), (Warehouse.jsSplit s '_')[1]? = some tp →
      Warehouse.timeValueOf ((Warehouse.jsSplit s '_')[0]?.getD "") tp = some tv →
      Warehouse.formatDate s = "viVN:" ++ Warehouse.intDecimal tv := by
    intro s tp tv h1 h2
    simp only [Warehouse.formatDate, h1, h2]
  have hb : ∀ s : String, '_' ∈ s.toList → Warehouse.formatDate s ≠ s := by
    intro s hmem heq
    have hlen : 2 ≤ (Warehouse.jsSplit s '_').length := by
      rw [Warehouse.jsSplit, List.length_map]
      exact Warehouse.splitChars_length_of_mem '_' s.toList hmem
    have h1 : (Warehouse.jsSplit s '_')[1]? ≠ none := by
      intro hnone
      rw [List.getElem?_eq_none_iff] at hnone
      omega
    obtain ⟨tp, htp⟩ := Option.ne_none_iff_exists'.mp h1
    cases htv : Warehouse.timeValueOf ((Warehouse.jsSplit s '_')[0]?.getD "") tp with
    | none =>
      rw [hinv s tp htp htv] at heq
      rw [← heq] at hmem
      exact absurd hmem (by decide)
    | some tv =>
      rw [hval s tp tv htp htv] at heq
      rw [← heq] at hmem
      have hmem' : '_' ∈ "viVN:".data ++ (Warehouse.intDecimal tv).data := hmem
      rcases List.mem_append.mp hmem' with h' | h'
      · exact absurd h' (by decide)
      · exact Warehouse.intDecimal_no_underscore tv h'
  have hA : Warehouse.formatDate "2025-13-01_00-00-00" =
      "viVN:" ++ Warehouse.intDecimal 1767225600000 :=
    hval "2025-13-01_00-00-00" "00-00-00" 1767225600000 (by decide)
      Warehouse.timeValue_rollover_a
  have hB : Warehouse.formatDate "2026-01-01_00-00-00" =
      "viVN:" ++ Warehouse.intDecimal 1767225600000 :=
    hval "2026-01-01_00-00-00" "00-00-00" 1767225600000 (by decide)
      Warehouse.timeValue_rollover_b
  refine ⟨?_, hb, hinv, hval, hA.trans hB.symm, by rw [hA]; decide, rfl⟩
  intro s hs
  simp only [Warehouse.formatDate, Warehouse.jsSplit,
    Warehouse.splitChars_not_mem '_' s.toList hs, List.map_cons, List.map_nil]
  rfl

set_option maxRecDepth 4000 in
/-- Witness for C5's amended statement: the original-string fallback
at the spec's example, the only-if direction, the Invalid-Date
rendering, and the valid rendering, each at a concrete input. -/
theorem c5_amended_fallback_witness :
    Warehouse.formatDate "not-a-date" = "not-a-date" ∧
    Warehouse.formatDate "a_b" ≠ "a_b" ∧
    Warehouse.formatDate "2025-12-20_20-11" = "Invalid Date" ∧
    Warehouse.formatDate "2025-12-20_20-11-20" =
      "viVN:" ++ Warehouse.intDecimal 1766261480000 :=
  ⟨c5_amended_fallback.1 "not-a-date" (by decide),
   c5_amended_fallback.2.1 "a_b" (by decide),
   c5_amended_fallback.2.2.1 "2025-12-20_20-11" "20-11" (by decide) (by decide),
   c5_amended_fallback.2.2.2.1 "2025-12-20_20-11-20" "20-11-20" 1766261480000
     (by decide) Warehouse.timeValue_example⟩

/-- The spec's example ledger snapshot: one alarm entry, one door
entry, one plain transaction — plus one top-level record without an
`amount`, which must be skipped. -/
def c6hist : List (String × Warehouse.HVal) :=
  [("alarm", .nested [("2026-01-05_16-37-41", some "ALARM")]),
   ("door", .nested [("2026-01-05_16-30-00", some "OPEN")]),
   ("2025-12-20_20-11-20", .flat (some 50) (some 150) (some "NHAP")),
   ("2025-12-21_08-00-00", .flat none (some 99) (some "XUAT"))]

/-- Claim C6: the example snapshot reconciles to exactly one
AlarmEvent, one DoorEvent and one Transaction, each in its own
sequence with no cross-contamination; the record lacking an `amount`
is silently skipped, and in general no reconciled transaction ever
carries a reserved key (`alarm`/`door`) as its date. -/
theorem c6_reconciliation :
    Warehouse.processAlarm c6hist = some [⟨"2026-01-05_16-37-41", "ALARM"⟩] ∧
    Warehouse.processDoor c6hist = some [⟨"2026-01-05_16-30-00", "OPEN"⟩] ∧
    Warehouse.processTransactions c6hist =
      [⟨"2025-12-20_20-11-20", 50, 150, "NHAP"⟩] ∧
    (∀ (hist : List (String × Warehouse.HVal))
        (tx : Warehouse.InventoryTransaction),
      tx ∈ Warehouse.processTransactions hist →
        tx.date ≠ "alarm" ∧ tx.date ≠ "door") := by
  refine ⟨by decide, by decide, by decide, ?_⟩
  intro hist tx htx
  rw [Warehouse.processTransactions, Warehouse.mem_jsSort] at htx
  exact (Warehouse.date_mem_keys hist tx htx).2

/-- Witness for C6's general no-reserved-key part at the example
snapshot's transaction. -/
theorem c6_reconciliation_witness :
    (⟨"2025-12-20_20-11-20", 50, 150, "NHAP"⟩ :
        Warehouse.InventoryTransaction).date ≠ "alarm" ∧
    (⟨"2025-12-20_20-11-20", 50, 150, "NHAP"⟩ :
        Warehouse.InventoryTransaction).date ≠ "door" :=
  c6_reconciliation.2.2.2 c6hist _ (by decide)

/-- Claim C8 is false on the code: `getAllReadings` hands out the
subject's array itself, so a later `addReading` mutates the previously
returned snapshot in place, and an external overwrite of the returned
array changes the window's contents and its statistics. -/
theorem c8_counterexample :
    SensorHistoryRef.deref
        (SensorHistoryRef.addReading SensorHistoryRef.init 25 50 0)
        (SensorHistoryRef.getAllReadings SensorHistoryRef.init) ≠
      SensorHistoryRef.deref SensorHistoryRef.init
        (SensorHistoryRef.getAllReadings SensorHistoryRef.init) ∧
    SensorHistoryRef.contents
        (SensorHistoryRef.extWrite SensorHistoryRef.init
          (SensorHistoryRef.getAllReadings SensorHistoryRef.init) [⟨25, 50, 0⟩]) ≠
      SensorHistoryRef.contents SensorHistoryRef.init ∧
    SensorHistory.getAverageTemperature
        (SensorHistoryRef.contents
          (SensorHistoryRef.extWrite SensorHistoryRef.init
            (SensorHistoryRef.getAllReadings SensorHistoryRef.init) [⟨25, 50, 0⟩])) ≠
      SensorHistory.getAverageTemperature
        (SensorHistoryRef.contents SensorHistoryRef.init) :=
  ⟨by decide, by decide, by
    norm_num [SensorHistory.getAverageTemperature, SensorHistoryRef.contents,
      SensorHistoryRef.deref, SensorHistoryRef.extWrite,
      SensorHistoryRef.getAllReadings, SensorHistoryRef.init]⟩

/-- A heap-level `addReading` allocates the published copy and mutates
the aliased current array to the same new window contents. -/
lemma SensorHistoryRef.addReading_heap (s : SensorHistoryRef.State)
    (t h : ℚ) (now : ℕ) :
    SensorHistoryRef.addReading s t h now =
      { store := s.store.set s.current
            (SensorHistory.addReading (SensorHistoryRef.contents s) t h now) ++
          [SensorHistory.addReading (SensorHistoryRef.contents s) t h now],
        current := s.store.length } := rfl

/-- Claim C8 amended: `getAllReadings` aliases the internal array.  On
a well-formed state, externally overwriting the returned reference
with `v` makes the window's contents `v`; after a subsequent
`addReading` the previously returned array holds the NEW window
contents (it was mutated in place); only from then on is the window
(now backed by the freshly published copy) insulated from writes
through the old reference; and the heap-level window contents evolve
exactly as the pure `addReading` function prescribes. -/
theorem c8_amended_alias (s : SensorHistoryRef.State) (t h : ℚ) (now : ℕ)
    (v : List SensorReading) (hwf : SensorHistoryRef.WF s) :
    SensorHistoryRef.contents
        (SensorHistoryRef.extWrite s (SensorHistoryRef.getAllReadings s) v) = v ∧
    SensorHistoryRef.deref (SensorHistoryRef.addReading s t h now)
        (SensorHistoryRef.getAllReadings s) =
      SensorHistoryRef.contents (SensorHistoryRef.addReading s t h now) ∧
    SensorHistoryRef.contents
        (SensorHistoryRef.extWrite (SensorHistoryRef.addReading s t h now)
          (SensorHistoryRef.getAllReadings s) v) =
      SensorHistoryRef.contents (SensorHistoryRef.addReading s t h now) ∧
    SensorHistoryRef.contents (SensorHistoryRef.addReading s t h now) =
      SensorHistory.addReading (SensorHistoryRef.contents s) t h now := by
  have hwf' : s.current < s.store.length := hwf
  have hne : s.current ≠ s.store.length := Nat.ne_of_lt hwf'
  have hL : (s.store.set s.current
      (SensorHistory.addReading (SensorHistoryRef.contents s) t h now)).length =
      s.store.length := List.length_set s.store s.current _
  have hlt : s.current < (s.store.set s.current
      (SensorHistory.addReading (SensorHistoryRef.contents s) t h now)).length := by
    rw [hL]; exact hwf'
  have hcontents :
      SensorHistoryRef.contents (SensorHistoryRef.addReading s t h now) =
        SensorHistory.addReading (SensorHistoryRef.contents s) t h now := by
    rw [SensorHistoryRef.addReading_heap]
    show ((s.store.set s.current
        (SensorHistory.addReading (SensorHistoryRef.contents s) t h now) ++
        [SensorHistory.addReading (SensorHistoryRef.contents s) t h now])[s.store.length]?).getD []
      = SensorHistory.addReading (SensorHistoryRef.contents s) t h now
    rw [← hL, List.getElem?_concat_length]
    rfl
  refine ⟨?_, ?_, ?_, hcontents⟩
  · show ((s.store.set s.current v)[s.current]?).getD [] = v
    rw [List.getElem?_set_self hwf']
    rfl
  · rw [hcontents, SensorHistoryRef.addReading_heap]
    show ((s.store.set s.current
        (SensorHistory.addReading (SensorHistoryRef.contents s) t h now) ++
        [SensorHistory.addReading (SensorHistoryRef.contents s) t h now])[s.current]?).getD []
      = SensorHistory.addReading (SensorHistoryRef.contents s) t h now
    rw [List.getElem?_append_left hlt, List.getElem?_set_self hwf']
    rfl
  · rw [hcontents, SensorHistoryRef.addReading_heap]
    show (((s.store.set s.current
        (SensorHistory.addReading (SensorHistoryRef.contents s) t h now) ++
        [SensorHistory.addReading (SensorHistoryRef.contents s) t h now]).set
          s.current v)[s.store.length]?).getD []
      = SensorHistory.addReading (SensorHistoryRef.contents s) t h now
    rw [List.getElem?_set_ne hne, ← hL, List.getElem?_concat_length]
    rfl

/-- Witness for C8's amended statement on the freshly constructed
service. -/
theorem c8_amended_alias_witness :
    SensorHistoryRef.contents
        (SensorHistoryRef.extWrite SensorHistoryRef.init
          (SensorHistoryRef.getAllReadings SensorHistoryRef.init) [⟨1, 2, 3⟩]) =
      [⟨1, 2, 3⟩] ∧
    SensorHistoryRef.deref
        (SensorHistoryRef.addReading SensorHistoryRef.init 25 50 0)
        (SensorHistoryRef.getAllReadings SensorHistoryRef.init) =
      SensorHistoryRef.contents
        (SensorHistoryRef.addReading SensorHistoryRef.init 25 50 0) ∧
    SensorHistoryRef.contents
        (SensorHistoryRef.extWrite
          (SensorHistoryRef.addReading SensorHistoryRef.init 25 50 0)
          (SensorHistoryRef.getAllReadings SensorHistoryRef.init) [⟨1, 2, 3⟩]) =
      SensorHistoryRef.contents
        (SensorHistoryRef.addReading SensorHistoryRef.init 25 50 0) ∧
    SensorHistoryRef.contents
        (SensorHistoryRef.addReading SensorHistoryRef.init 25 50 0) =
      SensorHistory.addReading
        (SensorHistoryRef.contents SensorHistoryRef.init) 25 50 0 :=
  c8_amended_alias SensorHistoryRef.init 25 50 0 [⟨1, 2, 3⟩]
    (by show (0 : ℕ) < 1; decide)
